import Mathlib

/-!
Verification of the table-resolution and cell-extraction engine of the
`scripts/scrape-unicode.py` scraper. The document tree, the landmark
resolver, the per-category cell extractors, the superscript/subscript
router, the serializer's title-casing and the catalog assignment
structure are embedded as executable Lean definitions translated from
the script, and the spec's testable properties are settled against them.
-/

/-- Exceptions the script can raise along the modelled paths:
`indexError` for an out-of-range index (empty selector match, missing
colon field, missing row cell), `attributeError` for attribute access on
a missing (`None`) node, `assertionError` for a failed `assert`. -/
inductive PyErr where
  | indexError
  | attributeError
  | assertionError
  deriving DecidableEq

/-- A parsed document element: tag name, attribute list, direct text
content (`None` when absent, as in lxml), and child elements in
document order. -/
inductive Elem where
  | mk (tag : String) (attrs : List (String × String)) (text : Option String) (children : List Elem)

/-- Tag name of an element (lxml `.tag`). -/
def Elem.tagOf : Elem → String
  | .mk t _ _ _ => t

/-- Attribute list of an element. -/
def Elem.attrsOf : Elem → List (String × String)
  | .mk _ a _ _ => a

/-- Direct text of an element (lxml `.text`), `none` when the element
has no leading text node. -/
def Elem.textOf : Elem → Option String
  | .mk _ _ x _ => x

/-- Child elements in document order. -/
def Elem.childrenOf : Elem → List Elem
  | .mk _ _ _ cs => cs

/-- Attribute lookup (lxml `.attrib.get`). -/
def Elem.attr (e : Elem) (k : String) : Option String :=
  e.attrsOf.lookup k

/-- First direct child with the given tag (lxml `.find(tag)`). -/
def Elem.findTag (e : Elem) (t : String) : Option Elem :=
  e.childrenOf.find? (fun c => c.tagOf == t)

/-- An element together with its ancestor chain, nearest parent first.
Ancestors let the model express lxml `.getparent()` chains. -/
structure Loc where
  elem : Elem
  ancs : List Elem

mutual

/-- Locations (element plus ancestor chain) of an element and all of its
descendants, in document order. -/
def elemLocs (anc : List Elem) : Elem → List Loc
  | .mk t a x cs => Loc.mk (.mk t a x cs) anc :: childLocs (.mk t a x cs :: anc) cs

/-- Locations of all elements of a forest and their descendants, in
document order, all sharing the ancestor chain `anc` at top level. -/
def childLocs (anc : List Elem) : List Elem → List Loc
  | [] => []
  | c :: rest => elemLocs anc c ++ childLocs anc rest

end

/-- All proper descendants of an element, in document order. This is the
scope of a PyQuery sub-query such as `pq(table)("td[title]")`. -/
def descendantsOf (e : Elem) : List Elem :=
  (childLocs [] e.childrenOf).map Loc.elem

/-- The selector shapes the script uses: `attrEq tag a v` models
`tag[a="v"]` (with `tag = none` for a bare `[a="v"]`), and
`underBold a v` models the descendant selector `b [a="v"]`. -/
inductive Sel where
  | attrEq (tag : Option String) (a : String) (v : String)
  | underBold (a : String) (v : String)

/-- Whether a located element matches a selector. -/
def matchesSel : Sel → Loc → Bool
  | .attrEq tag a v, l =>
    (match tag with
     | none => true
     | some t => l.elem.tagOf == t) && (l.elem.attr a == some v)
  | .underBold a v, l =>
    (l.elem.attr a == some v) && l.ancs.any (fun p => p.tagOf == "b")

/-- All locations in a document matching a selector, in document order
(PyQuery `d(selector)`). -/
def queryLocs (doc : Elem) (sel : Sel) : List Loc :=
  (elemLocs [] doc).filter (matchesSel sel)

/-- The landmark resolver: select the last match of the selector
(`[-1]`, an `IndexError` when empty), ascend `levels` applications of
`.getparent()` (an `AttributeError` when the chain runs past the root),
and assert the reached element is a `table` (an `AssertionError`
otherwise). Models the `landmark`/`table`/`assert` preamble of
`resolve_table` and of the inline category blocks. -/
def resolveAscend (doc : Elem) (sel : Sel) (levels : Nat) : Except PyErr Elem :=
  match (queryLocs doc sel).getLast? with
  | none => .error .indexError
  | some l =>
    match l.ancs.get? (levels - 1) with
    | none => .error .attributeError
    | some p => if p.tagOf == "table" then .ok p else .error .assertionError

/-- Python string truthiness for an optional string: `None` and the
empty string are falsy. -/
def truthy : Option String → Bool
  | none => false
  | some s => !(s == "")

/-- Characters removed by Python `str.strip()` (ASCII whitespace
fragment). -/
def stripChars (cs : List Char) : List Char :=
  ((cs.dropWhile Char.isWhitespace).reverse.dropWhile Char.isWhitespace).reverse

/-- Python `str.strip()`: trim whitespace from both ends. -/
def pyStrip (s : String) : String :=
  ⟨stripChars s.data⟩

/-- Python `str.split(sep)` for a one-character separator: no collapsing
of adjacent separators, `[""]` on the empty string. -/
def splitCh (sep : Char) : List Char → List (List Char)
  | [] => [[]]
  | c :: cs =>
    match splitCh sep cs with
    | [] => if c = sep then [[], [c]] else [[c]]
    | h :: t => if c = sep then [] :: h :: t else (c :: h) :: t

/-- Name derivation of the script: `title.split(":")[1].strip()`, the
field between the first and second colon; an `IndexError` when the value
has no colon. -/
def pyNameOf (title : String) : Except PyErr String :=
  match (splitCh ':' title.data).get? 1 with
  | none => .error .indexError
  | some cs => .ok ⟨stripChars cs⟩

/-- Modelled from the spec: the spec's words for name derivation are
"substring after the first colon in the attribute value, trimmed of
surrounding whitespace"; `none` when the value has no colon. Stated
separately from `pyNameOf` (the code's derivation) for comparison. -/
def specNameOf (title : String) : Option String :=
  match splitCh ':' title.data with
  | [] => none
  | [_] => none
  | _ :: rest => some ⟨stripChars (List.intercalate [':'] rest)⟩

/-- The glyph fallback chain of `resolve_table` up to (not including)
the final `.strip()`: start from the cell's direct text; when that is
falsy, read a direct child anchor's text, then let a direct child
`span`, when present, overwrite it with its child anchor's text or,
lacking an anchor, with the text three `span` levels deeper (attribute
errors when those spans are missing). -/
def cellLetter (td : Elem) : Except PyErr (Option String) :=
  if truthy td.textOf then .ok td.textOf
  else
    match td.findTag "span" with
    | none =>
      match td.findTag "a" with
      | some a => .ok a.textOf
      | none => .ok td.textOf
    | some sp =>
      match sp.findTag "a" with
      | some a => .ok a.textOf
      | none =>
        match sp.findTag "span" with
        | none => .error .attributeError
        | some s1 =>
          match s1.findTag "span" with
          | none => .error .attributeError
          | some s2 =>
            match s2.findTag "span" with
            | none => .error .attributeError
            | some s3 => .ok s3.textOf

/-- The glyph of a cell in `resolve_table`: the fallback chain followed
by `letter.strip()`, which raises an `AttributeError` when the chain
left `None`. -/
def cellGlyph (td : Elem) : Except PyErr String :=
  match cellLetter td with
  | .error e => .error e
  | .ok none => .error .attributeError
  | .ok (some s) => .ok (pyStrip s)

/-- Per-cell step of the `resolve_table` extractor: skip cells without a
`title` attribute or whose value is the sentinel `"Reserved"`; otherwise
derive the name and the glyph and emit the pair (the glyph may be
empty). -/
def cellTitleStep (td : Elem) : Except PyErr (Option (String × String)) :=
  match td.attr "title" with
  | none => .ok none
  | some title =>
    if title == "Reserved" then .ok none
    else
      match pyNameOf title with
      | .error e => .error e
      | .ok name =>
        match cellGlyph td with
        | .error e => .error e
        | .ok glyph => .ok (some (name, glyph))

/-- Per-cell step of the General Punctuation block: the glyph must come
from a direct child anchor (`td.find("a").text`, an `AttributeError`
when the anchor is missing); cells whose anchor text is falsy are
skipped, and the glyph is not stripped. -/
def gpStep (td : Elem) : Except PyErr (Option (String × String)) :=
  match td.attr "title" with
  | none => .ok none
  | some title =>
    if title == "Reserved" then .ok none
    else
      match pyNameOf title with
      | .error e => .error e
      | .ok name =>
        match td.findTag "a" with
        | none => .error .attributeError
        | some a =>
          match a.textOf with
          | none => .ok none
          | some s => if s == "" then .ok none else .ok (some (name, s))

/-- Per-cell step of the Chess Symbols block (text-only variant):
`letter = td.text.strip()` with no fallback, an `AttributeError` when
the cell has no direct text; the pair is emitted even when empty. -/
def chessStep (td : Elem) : Except PyErr (Option (String × String)) :=
  match td.attr "title" with
  | none => .ok none
  | some title =>
    if title == "Reserved" then .ok none
    else
      match pyNameOf title with
      | .error e => .error e
      | .ok name =>
        match td.textOf with
        | none => .error .attributeError
        | some s => .ok (some (name, pyStrip s))

/-- Run a per-cell step over the cells in order, collecting the emitted
pairs and stopping at the first raised exception. -/
def runCells (step : Elem → Except PyErr (Option (String × String))) :
    List Elem → Except PyErr (List (String × String))
  | [] => .ok []
  | td :: rest =>
    match step td with
    | .error e => .error e
    | .ok none => runCells step rest
    | .ok (some p) =>
      match runCells step rest with
      | .error e => .error e
      | .ok ps => .ok (p :: ps)

/-- The cells a title-oriented extractor walks: descendants of the table
with tag `td` carrying a `title` attribute, in document order
(`pq(table)("td[title]")`). -/
def tdTitleCells (table : Elem) : List Elem :=
  (descendantsOf table).filter (fun d => d.tagOf == "td" && (d.attr "title").isSome)

/-- The `resolve_table` extractor (fallback-chain strategy) applied to a
table. -/
def chainExtract (table : Elem) : Except PyErr (List (String × String)) :=
  runCells cellTitleStep (tdTitleCells table)

/-- The General Punctuation extractor (anchor-required strategy) applied
to a table. -/
def gpExtract (table : Elem) : Except PyErr (List (String × String)) :=
  runCells gpStep (tdTitleCells table)

/-- The Chess Symbols extractor (text-only strategy) applied to a
table. -/
def chessExtract (table : Elem) : Except PyErr (List (String × String)) :=
  runCells chessStep (tdTitleCells table)

/-- One row of the Dingbats block: `tds = tr.findall("td")` (direct
children), name from `tds[2].text` with a child-anchor fallback when
falsy, glyph from `tds[1].text`, both stripped; index and attribute
errors as in Python. The `title` attribute is never consulted. -/
def dingbatsRow (tr : Elem) : Except PyErr (String × String) :=
  match (tr.childrenOf.filter (fun c => c.tagOf == "td")).get? 2 with
  | none => .error .indexError
  | some td2 =>
    match
      (if truthy td2.textOf then .ok td2.textOf
       else
         match td2.findTag "a" with
         | none => .error .attributeError
         | some a => .ok a.textOf : Except PyErr (Option String)) with
    | .error e => .error e
    | .ok none => .error .attributeError
    | .ok (some n) =>
      match (tr.childrenOf.filter (fun c => c.tagOf == "td")).get? 1 with
      | none => .error .indexError
      | some td1 =>
        match td1.textOf with
        | none => .error .attributeError
        | some lt => .ok (pyStrip n, pyStrip lt)

/-- Rows walked by the Dingbats extractor: all `tr` descendants of the
table, in document order, with the header row dropped (`("tr")[1:]`). -/
def dingbatsRowsOf (table : Elem) : List Elem :=
  ((descendantsOf table).filter (fun d => d.tagOf == "tr")).drop 1

/-- Run the Dingbats row step over a list of rows, stopping at the
first raised exception. -/
def runRows : List Elem → Except PyErr (List (String × String))
  | [] => .ok []
  | tr :: rest =>
    match dingbatsRow tr with
    | .error e => .error e
    | .ok p =>
      match runRows rest with
      | .error e => .error e
      | .ok ps => .ok (p :: ps)

/-- The Dingbats extractor (row-oriented strategy) applied to a
table. -/
def dingbatsExtract (table : Elem) : Except PyErr (List (String × String)) :=
  runRows (dingbatsRowsOf table)

/-- Uppercase map of Python's ASCII case folding: ASCII lowercase
letters map up, everything else is unchanged. -/
def upChar (c : Char) : Char :=
  if 97 ≤ c.toNat ∧ c.toNat ≤ 122 then Char.ofNat (c.toNat - 32) else c

/-- Lowercase map of Python's ASCII case folding: ASCII uppercase
letters map down, everything else is unchanged. -/
def lowChar (c : Char) : Char :=
  if 65 ≤ c.toNat ∧ c.toNat ≤ 90 then Char.ofNat (c.toNat + 32) else c

/-- Whether a character is cased, in the ASCII fragment Python's
`str.title()` word detection uses on this data. -/
def casedChar (c : Char) : Bool :=
  decide ((65 ≤ c.toNat ∧ c.toNat ≤ 90) ∨ (97 ≤ c.toNat ∧ c.toNat ≤ 122))

/-- Core loop of Python `str.title()` (ASCII fragment): a character
following a cased character is lowercased, any other character is
uppercased, and the "previous character was cased" flag is carried
along. -/
def titleGo : Bool → List Char → List Char
  | _, [] => []
  | prev, c :: cs => (if prev then lowChar c else upChar c) :: titleGo (casedChar c) cs

/-- Python `str.title()` as applied by the serializer to every entry
name (`name.title()`), restricted to the ASCII fragment the catalog
names use. -/
def pyTitle (s : String) : String :=
  ⟨titleGo false s.data⟩

/-- The serializer's per-category transformation: title-case every
name, keep every glyph. -/
def titleCaseEntries (es : List (String × String)) : List (String × String) :=
  es.map (fun p => (pyTitle p.1, p.2))

/-- The General Punctuation category pipeline: resolve the last
`a[title=cat]` match, ascend five levels, assert a table, extract with
the anchor-required step, and apply the serializer's title-casing. -/
def gpPipeline (doc : Elem) (cat : String) : Except PyErr (List (String × String)) :=
  match resolveAscend doc (Sel.attrEq (some "a") "title" cat) 5 with
  | .error e => .error e
  | .ok t =>
    match gpExtract t with
    | .error e => .error e
    | .ok es => .ok (titleCaseEntries es)

/-- Whether `p` is a prefix of `s` over character lists. -/
def isPre (p : List Char) : List Char → Bool :=
  fun s =>
    match p, s with
    | [], _ => true
    | _ :: _, [] => false
    | a :: ps, b :: ss => a == b && isPre ps ss

/-- Whether `p` occurs contiguously in `s` over character lists. -/
def hasInf (p : List Char) : List Char → Bool
  | [] => isPre p []
  | c :: cs => isPre p (c :: cs) || hasInf p cs

/-- Python's substring test `pat in s`. -/
def pyIn (pat s : String) : Bool :=
  hasInf pat.data s.data

/-- The Superscripts and Subscripts router: each extracted entry goes to
the superscript list when its name contains `"SUPERSCRIPT"` (checked
first), otherwise to the subscript list when it contains `"SUBSCRIPT"`,
otherwise `assert False` aborts the run. Returns
(subscripts, superscripts) in entry order. -/
def routeSupSub : List (String × String) →
    Except PyErr (List (String × String) × List (String × String))
  | [] => .ok ([], [])
  | (name, letter) :: rest =>
    if pyIn "SUPERSCRIPT" name then
      match routeSupSub rest with
      | .error e => .error e
      | .ok (subs, sups) => .ok (subs, (name, letter) :: sups)
    else if pyIn "SUBSCRIPT" name then
      match routeSupSub rest with
      | .error e => .error e
      | .ok (subs, sups) => .ok ((name, letter) :: subs, sups)
    else .error .assertionError

/-- The Python list variables the script builds; one per category
block. -/
inductive SrcVar where
  | unicode_symbols
  | general_punctuation_symbols
  | subscript_symbols
  | superscript_symbols
  | currency_symbols
  | letterlike_symbols
  | number_forms
  | arrow_symbols
  | math_symbols
  | misc_technical_symbols
  | enclosed_alphanumeric_symbols
  | box_drawing_symbols
  | block_element_symbols
  | geometric_shape_symbols
  | legacy_computing_symbols
  | misc_symbols
  | dingbats_symbols
  | alchemical_symbols
  | mahjong_tiles
  | domino_tiles
  | playing_cards
  | chess_symbols
  | emoji_symbols
  deriving DecidableEq, BEq

/-- The assignments `characters[key] = variable` of the script, in
program order; each catalog key is mapped to the Python list variable
whose object is stored under it. The `"Misc Technical Symbols"` key is
assigned `math_symbols` in the source, not `misc_technical_symbols`. -/
def catalogAssigns : List (String × SrcVar) :=
  [("Unicode Symbols", .unicode_symbols),
   ("General Punctuation", .general_punctuation_symbols),
   ("Subscript Symbols", .subscript_symbols),
   ("Superscript Symbols", .superscript_symbols),
   ("Currency Symbols", .currency_symbols),
   ("Letterlike Symbols", .letterlike_symbols),
   ("Number Forms", .number_forms),
   ("Arrow Symbols", .arrow_symbols),
   ("Math Symbols", .math_symbols),
   ("Misc Technical Symbols", .math_symbols),
   ("Enclosed Alphanumeric Symbols", .enclosed_alphanumeric_symbols),
   ("Box Drawing Symbols", .box_drawing_symbols),
   ("Block Element Symbols", .block_element_symbols),
   ("Geometric Shape Symbols", .geometric_shape_symbols),
   ("Legacy Computing Symbols", .legacy_computing_symbols),
   ("Misc Symbols", .misc_symbols),
   ("Dingbats", .dingbats_symbols),
   ("Alchemical Symbols", .alchemical_symbols),
   ("Mahjong Tiles", .mahjong_tiles),
   ("Domino Tiles", .domino_tiles),
   ("Playing Cards", .playing_cards),
   ("Chess Symbols", .chess_symbols),
   ("Emojis", .emoji_symbols)]

/-- All ordered pairs of distinct catalog keys that are assigned the
same underlying list variable. -/
def sharedPairsAux : List (String × SrcVar) → List (String × String)
  | [] => []
  | (k, v) :: rest =>
    (rest.filter (fun p => p.2 == v)).map (fun p => (k, p.1)) ++ sharedPairsAux rest

/-- The pairs of catalog keys sharing one underlying entry list. -/
def sharedPairs : List (String × String) :=
  sharedPairsAux catalogAssigns

/-- Data cell of the end-to-end scenario: descriptive attribute
`U+0041: LATIN CAPITAL LETTER A` and direct text `"A"`. -/
def synthCell : Elem :=
  .mk "td" [("title", "U+0041: LATIN CAPITAL LETTER A")] (some "A") []

/-- Landmark anchor of the end-to-end scenario. -/
def synthAnchor : Elem :=
  .mk "a" [("title", "Test Category")] (some "Test Category") []

/-- Table of the end-to-end scenario: the landmark anchor sits exactly
five ascent levels below the table element. -/
def synthTable : Elem :=
  .mk "table" [] none
    [.mk "tbody" [] none
      [.mk "tr" [] none
        [synthCell,
         .mk "td" [] none [.mk "b" [] none [synthAnchor]]]]]

/-- Document of the end-to-end scenario. -/
def synthDoc : Elem :=
  .mk "html" [] none [.mk "body" [] none [synthTable]]

/-- Variant data cell whose glyph `"A"` sits in a child anchor instead
of the direct text. -/
def synthCellB : Elem :=
  .mk "td" [("title", "U+0041: LATIN CAPITAL LETTER A")] none [.mk "a" [] (some "A") []]

/-- Variant table for the anchor-glyph scenario. -/
def synthTableB : Elem :=
  .mk "table" [] none
    [.mk "tbody" [] none
      [.mk "tr" [] none
        [synthCellB,
         .mk "td" [] none [.mk "b" [] none [synthAnchor]]]]]

/-- Variant document for the anchor-glyph scenario. -/
def synthDocB : Elem :=
  .mk "html" [] none [.mk "body" [] none [synthTableB]]

/-- A titled cell whose attribute value ends at its only colon and whose
direct text is a single space. -/
def blankCell : Elem :=
  .mk "td" [("title", "U+0000:")] (some " ") []

/-- A one-cell table around `blankCell`. -/
def blankTable : Elem :=
  .mk "table" [] none [.mk "tr" [] none [blankCell]]

/-- A cell with no direct text, a direct child anchor with text `"X"`,
and a direct child span holding an anchor with text `"Y"`. -/
def overrideCell : Elem :=
  .mk "td" [] none
    [.mk "a" [] (some "X") [], .mk "span" [] none [.mk "a" [] (some "Y") []]]

/-- A glyph cell carrying the Reserved sentinel as its title and direct
text `"X"`. -/
def reservedGlyphCell : Elem :=
  .mk "td" [("title", "Reserved")] (some "X") []

/-- A two-row table in the Dingbats layout whose data row's glyph cell
is `reservedGlyphCell`. -/
def reservedRowTable : Elem :=
  .mk "table" [] none
    [.mk "tr" [] none [],
     .mk "tr" [] none
       [.mk "td" [] (some "U+2700") [], reservedGlyphCell, .mk "td" [] (some "NAME") []]]

/-- A cell with whitespace-padded direct text, for the short-circuit
witness. -/
def wsCell : Elem :=
  .mk "td" [] (some " Z ") []

/-- A titled cell in the General Punctuation layout: glyph inside a
child anchor. -/
def gpWitCell : Elem :=
  .mk "td" [("title", "U+2013: EN DASH")] none [.mk "a" [] (some "-") []]

/-- Cells that are kept when the Reserved sentinel cells are filtered
away. -/
def notReservedB (td : Elem) : Bool :=
  !(td.attr "title" == some "Reserved")

/-- Claim C1, counterexample: a cell whose title has an empty second
colon field and whose direct text is a single space is emitted by the
fallback-chain extractor as the entry with empty name and empty glyph,
so entries with an empty glyph are not discarded by this strategy. -/
theorem extractor_emits_empty_entry :
    blankCell.attr "title" = some "U+0000:" ∧ chainExtract blankTable = .ok [("", "")] :=
  ⟨rfl, rfl⟩

/-- Helper: an entry the General Punctuation step emits has a non-empty
glyph, because falsy anchor text is skipped. -/
theorem gpStep_some (td : Elem) (p : String × String) (h : gpStep td = .ok (some p)) :
    p.2 ≠ "" := by
  unfold gpStep at h
  split at h
  · exact absurd h (by simp)
  · split at h
    · exact absurd h (by simp)
    · split at h
      · exact absurd h (by simp)
      · split at h
        · exact absurd h (by simp)
        · split at h
          · exact absurd h (by simp)
          · split at h
            · exact absurd h (by simp)
            · rename_i s hs
              injection h with h'
              injection h' with h''
              subst h''
              simpa using hs

/-- Claim C1, amended: only the anchor-required (General Punctuation)
strategy discards cells with a falsy glyph, so every entry it emits has
a non-empty glyph; the fallback-chain strategy of the other cell-title
categories can emit entries with an empty name or an empty glyph. -/
theorem gp_entries_nonempty_glyph :
    ∀ cells es, runCells gpStep cells = .ok es → ∀ p ∈ es, p.2 ≠ "" := by
  intro cells
  induction cells with
  | nil =>
    intro es h p hp
    simp only [runCells] at h
    injection h with h'
    subst h'
    simp at hp
  | cons td rest ih =>
    intro es h p hp
    simp only [runCells] at h
    split at h
    · exact absurd h (by simp)
    · exact ih es h p hp
    · rename_i q hq
      split at h
      · exact absurd h (by simp)
      · rename_i ps hps
        injection h with h'
        subst h'
        rcases List.mem_cons.mp hp with rfl | hmem
        · exact gpStep_some td p hq
        · exact ih ps hps p hmem

/-- Claim C1, witness: applied to a one-cell table in the General
Punctuation layout. -/
theorem gp_entries_nonempty_glyph_wit : ("-" : String) ≠ "" :=
  gp_entries_nonempty_glyph [gpWitCell] [("EN DASH", "-")] rfl ("EN DASH", "-") (by simp)

/-- Claim C2, counterexample: a cell with no direct text, a direct
child anchor with text "X" and a direct child span holding an anchor
with text "Y" gets the glyph "Y" — the span producer overwrites the
anchor producer although the anchor already yielded non-empty text, so
the chain is not short-circuiting past step (b). -/
theorem span_overrides_anchor :
    overrideCell.textOf = none ∧
    (overrideCell.findTag "a").map Elem.textOf = some (some "X") ∧
    cellGlyph overrideCell = .ok "Y" :=
  ⟨rfl, rfl, rfl⟩

/-- Claim C2, amended: the direct-text producer does short-circuit:
whenever a cell's direct text is non-empty, the glyph is that text,
stripped, and no later producer is consulted — in particular direct
text beats a child anchor. -/
theorem direct_text_short_circuits (td : Elem) (s : String)
    (h1 : td.textOf = some s) (h2 : s ≠ "") :
    cellGlyph td = .ok (pyStrip s) := by
  have ht : truthy (some s) = true := by
    simpa [truthy] using h2
  simp [cellGlyph, cellLetter, h1, ht]

/-- Claim C2, witness: a cell with whitespace-padded direct text. -/
theorem direct_text_short_circuits_wit : cellGlyph wsCell = .ok "Z" :=
  direct_text_short_circuits wsCell " Z " rfl (by decide)

/-- Claim C3, counterexample: on the synthetic document of the
scenario, the title-anchor pipeline as implemented (anchor-required
extraction) aborts with an attribute error on the cell holding direct
text "A" and no child anchor, instead of yielding an entry. -/
theorem title_anchor_direct_text_aborts :
    gpPipeline synthDoc "Test Category" = .error .attributeError :=
  rfl

/-- Claim C3, amended: with the glyph "A" placed in a child anchor of
the data cell — the shape the title-anchor category's extraction
requires — resolving "Test Category" five levels up and extracting
yields exactly one Entry, which after output title-casing is
("Latin Capital Letter A", "A"). -/
theorem title_anchor_pipeline_entry :
    gpPipeline synthDocB "Test Category" = .ok [("Latin Capital Letter A", "A")] :=
  rfl

/-- Claim C4, counterexample: on an attribute value with two colons the
derived name is the field between the first and second colon, not the
substring after the first colon that the spec prescribes. -/
theorem name_second_field_not_suffix :
    pyNameOf "U+0041: A:B" = .ok "A" ∧ specNameOf "U+0041: A:B" = some "A:B" ∧
    ("A" : String) ≠ "A:B" :=
  ⟨rfl, rfl, by decide⟩

/-- Claim C4, amended: for attribute values containing exactly one
colon the derived name does equal the substring after the first colon,
trimmed of surrounding whitespace; with more than one colon the code
keeps only the field before the second colon, and with no colon it
raises an index error. -/
theorem name_matches_spec_single_colon (s : String) (a b : List Char)
    (h : splitCh ':' s.data = [a, b]) :
    pyNameOf s = .ok ⟨stripChars b⟩ ∧ specNameOf s = some ⟨stripChars b⟩ := by
  constructor
  · simp [pyNameOf, h]
  · simp [specNameOf, h, List.intercalate]

/-- Claim C4, witness: the single-colon value of the end-to-end
scenario. -/
theorem name_matches_spec_single_colon_wit :
    pyNameOf "U+0041: LATIN CAPITAL LETTER A" = .ok "LATIN CAPITAL LETTER A" ∧
    specNameOf "U+0041: LATIN CAPITAL LETTER A" = some "LATIN CAPITAL LETTER A" :=
  name_matches_spec_single_colon "U+0041: LATIN CAPITAL LETTER A"
    "U+0041".data " LATIN CAPITAL LETTER A".data rfl

/-- Claim C5: exactly one pair of catalog keys shares an underlying
entry list — "Misc Technical Symbols" is assigned the list built for
"Math Symbols" — and no other pair of categories shares one. -/
theorem misc_technical_aliases_math :
    sharedPairs = [("Math Symbols", "Misc Technical Symbols")] :=
  rfl

/-- Claim C6, counterexample: the row-oriented (Dingbats) extractor
never consults the title attribute, so a glyph cell carrying the
Reserved sentinel still produces an entry. -/
theorem dingbats_reserved_cell_emits :
    reservedGlyphCell.attr "title" = some "Reserved" ∧
    dingbatsExtract reservedRowTable = .ok [("NAME", "X")] :=
  ⟨rfl, rfl⟩

/-- Helper: removing the Reserved-sentinel cells does not change the
output of a per-cell step that skips them. -/
theorem runCells_filter_skip (step : Elem → Except PyErr (Option (String × String)))
    (hstep : ∀ td, td.attr "title" = some "Reserved" → step td = .ok none) :
    ∀ cells, runCells step (cells.filter notReservedB) = runCells step cells := by
  intro cells
  induction cells with
  | nil => rfl
  | cons td rest ih =>
    by_cases hr : td.attr "title" = some "Reserved"
    · have hf : notReservedB td = false := by simp [notReservedB, hr]
      rw [List.filter_cons_of_neg (by simp [hf])]
      rw [ih]
      conv_rhs => rw [runCells]
      rw [hstep td hr]
    · have hf : notReservedB td = true := by
        simp [notReservedB]
        intro hco
        exact absurd hco hr
      rw [List.filter_cons_of_pos (by simp [hf])]
      simp only [runCells]
      rw [ih]

/-- Helper: the fallback-chain step skips Reserved cells. -/
theorem cellTitleStep_reserved (td : Elem) (h : td.attr "title" = some "Reserved") :
    cellTitleStep td = .ok none := by
  simp [cellTitleStep, h]

/-- Helper: the anchor-required step skips Reserved cells. -/
theorem gpStep_reserved (td : Elem) (h : td.attr "title" = some "Reserved") :
    gpStep td = .ok none := by
  simp [gpStep, h]

/-- Helper: the text-only step skips Reserved cells. -/
theorem chessStep_reserved (td : Elem) (h : td.attr "title" = some "Reserved") :
    chessStep td = .ok none := by
  simp [chessStep, h]

/-- Claim C6, amended: under the three title-consulting strategies
(fallback-chain, anchor-required, text-only) a cell whose title is
exactly "Reserved" produces no entry and does not affect the rest of
the extraction; the row-oriented strategies do not consult the title
attribute at all, so they do not give this guarantee. -/
theorem reserved_skipped_title_strategies (cells : List Elem) :
    runCells cellTitleStep (cells.filter notReservedB) = runCells cellTitleStep cells ∧
    runCells gpStep (cells.filter notReservedB) = runCells gpStep cells ∧
    runCells chessStep (cells.filter notReservedB) = runCells chessStep cells :=
  ⟨runCells_filter_skip cellTitleStep cellTitleStep_reserved cells,
   runCells_filter_skip gpStep gpStep_reserved cells,
   runCells_filter_skip chessStep chessStep_reserved cells⟩

/-- Claim C7: resolution never returns an element that is not a table —
whenever the resolver succeeds, the returned element's tag is
"table"; every other outcome is a raised exception. -/
theorem resolve_returns_only_tables (doc : Elem) (sel : Sel) (n : Nat) (t : Elem)
    (h : resolveAscend doc sel n = .ok t) : t.tagOf = "table" := by
  unfold resolveAscend at h
  split at h
  · exact absurd h (by simp)
  · split at h
    · exact absurd h (by simp)
    · rename_i p hp
      split at h
      · rename_i htag
        injection h with h'
        subst h'
        exact eq_of_beq htag
      · exact absurd h (by simp)

/-- Claim C7, witness: the synthetic document resolves to its table. -/
theorem resolve_returns_only_tables_wit : synthTable.tagOf = "table" :=
  resolve_returns_only_tables synthDoc (Sel.attrEq (some "a") "title" "Test Category") 5
    synthTable rfl

/-- Claim C8: with zero landmark matches, the last-match selection
raises an index error — no fallback selector or ascent depth is tried
and no empty result is returned. -/
theorem resolve_empty_matches_fails (doc : Elem) (sel : Sel) (n : Nat)
    (h : queryLocs doc sel = []) : resolveAscend doc sel n = .error .indexError := by
  unfold resolveAscend
  rw [h]
  rfl

/-- Claim C8, witness: a selector matching nothing in the synthetic
document. -/
theorem resolve_empty_matches_fails_wit :
    resolveAscend synthDoc (Sel.attrEq (some "a") "title" "No Such Category") 5 =
      .error .indexError :=
  resolve_empty_matches_fails synthDoc (Sel.attrEq (some "a") "title" "No Such Category") 5 rfl

/-- Helper: evaluating a valid scalar codepoint back to a natural
number is the identity on the letter range. -/
theorem charOfNat_toNat (n : Nat) (h1 : 65 ≤ n) (h2 : n ≤ 122) :
    (Char.ofNat n).toNat = n := by
  interval_cases n <;> rfl

/-- Helper: uppercasing a lowercase letter subtracts 32. -/
theorem upChar_toNat_of_lower (c : Char) (h : 97 ≤ c.toNat ∧ c.toNat ≤ 122) :
    (upChar c).toNat = c.toNat - 32 := by
  rw [upChar, if_pos h]
  exact charOfNat_toNat _ (by omega) (by omega)

/-- Helper: lowercasing an uppercase letter adds 32. -/
theorem lowChar_toNat_of_upper (c : Char) (h : 65 ≤ c.toNat ∧ c.toNat ≤ 90) :
    (lowChar c).toNat = c.toNat + 32 := by
  rw [lowChar, if_pos h]
  exact charOfNat_toNat _ (by omega) (by omega)

/-- Helper: case mapping preserves casedness. -/
theorem casedChar_upChar (c : Char) : casedChar (upChar c) = casedChar c := by
  by_cases h : 97 ≤ c.toNat ∧ c.toNat ≤ 122
  · have hv := upChar_toNat_of_lower c h
    rw [casedChar, casedChar, decide_eq_decide, hv]
    omega
  · rw [upChar, if_neg h]

/-- Helper: case mapping preserves casedness. -/
theorem casedChar_lowChar (c : Char) : casedChar (lowChar c) = casedChar c := by
  by_cases h : 65 ≤ c.toNat ∧ c.toNat ≤ 90
  · have hv := lowChar_toNat_of_upper c h
    rw [casedChar, casedChar, decide_eq_decide, hv]
    omega
  · rw [lowChar, if_neg h]

/-- Helper: the uppercase map is idempotent. -/
theorem upChar_upChar (c : Char) : upChar (upChar c) = upChar c := by
  by_cases h : 97 ≤ c.toNat ∧ c.toNat ≤ 122
  · have hv := upChar_toNat_of_lower c h
    conv_lhs => rw [upChar]
    rw [if_neg (by omega)]
  · have hc : upChar c = c := by rw [upChar, if_neg h]
    rw [hc, hc]

/-- Helper: the lowercase map is idempotent. -/
theorem lowChar_lowChar (c : Char) : lowChar (lowChar c) = lowChar c := by
  by_cases h : 65 ≤ c.toNat ∧ c.toNat ≤ 90
  · have hv := lowChar_toNat_of_upper c h
    conv_lhs => rw [lowChar]
    rw [if_neg (by omega)]
  · have hc : lowChar c = c := by rw [lowChar, if_neg h]
    rw [hc, hc]

/-- Helper: the title-casing loop is idempotent for any starting
flag. -/
theorem titleGo_idem (cs : List Char) :
    ∀ prev, titleGo prev (titleGo prev cs) = titleGo prev cs := by
  induction cs with
  | nil => intro prev; rfl
  | cons c cs ih =>
    intro prev
    cases prev with
    | true =>
      show titleGo true (lowChar c :: titleGo (casedChar c) cs) = _
      show lowChar (lowChar c) :: titleGo (casedChar (lowChar c)) (titleGo (casedChar c) cs) = _
      rw [lowChar_lowChar, casedChar_lowChar, ih (casedChar c)]
      rfl
    | false =>
      show titleGo false (upChar c :: titleGo (casedChar c) cs) = _
      show upChar (upChar c) :: titleGo (casedChar (upChar c)) (titleGo (casedChar c) cs) = _
      rw [upChar_upChar, casedChar_upChar, ih (casedChar c)]
      rfl

/-- Claim C9: the title-casing applied to every entry name at
serialization is idempotent — applying it twice yields the same string
as applying it once. -/
theorem title_case_idempotent (s : String) : pyTitle (pyTitle s) = pyTitle s :=
  congrArg String.mk (titleGo_idem s.data false)

/-- Claim C10: when every extracted name contains one of the two
routing substrings, the Superscripts and Subscripts router succeeds and
partitions the entries — names containing "SUPERSCRIPT" (checked first,
so names with both go here) into the superscript list, the remaining
names containing "SUBSCRIPT" into the subscript list, each entry to
exactly one side in order. -/
theorem supsub_routing_partition :
    ∀ es : List (String × String),
      (∀ p ∈ es, pyIn "SUPERSCRIPT" p.1 = true ∨ pyIn "SUBSCRIPT" p.1 = true) →
      routeSupSub es =
        .ok (es.filter (fun p => !(pyIn "SUPERSCRIPT" p.1) && pyIn "SUBSCRIPT" p.1),
             es.filter (fun p => pyIn "SUPERSCRIPT" p.1)) := by
  intro es
  induction es with
  | nil => intro _; rfl
  | cons p rest ih =>
    intro h
    have hrest := ih (fun q hq => h q (List.mem_cons_of_mem _ hq))
    obtain ⟨n, l⟩ := p
    rcases h (n, l) (List.mem_cons_self _ _) with hsup | hsub
    · simp only [routeSupSub, hsup, if_true, hrest]
      simp [List.filter_cons, hsup]
    · by_cases hsup2 : pyIn "SUPERSCRIPT" n = true
      · simp only [routeSupSub, hsup2, if_true, hrest]
        simp [List.filter_cons, hsup2]
      · simp only [routeSupSub, hsup2, hsub, if_true, Bool.false_eq_true, if_false, hrest]
        simp [List.filter_cons, hsup2, hsub]

/-- Claim C10, witness: a two-entry table routes one entry to each
side. -/
theorem supsub_routing_partition_wit :
    routeSupSub [("SUPERSCRIPT TWO", "A"), ("SUBSCRIPT TWO", "B")] =
      .ok ([("SUBSCRIPT TWO", "B")], [("SUPERSCRIPT TWO", "A")]) :=
  (supsub_routing_partition [("SUPERSCRIPT TWO", "A"), ("SUBSCRIPT TWO", "B")]
    (by decide)).trans rfl
